import Mathlib

/-!
Verification of the TUI code editor (`editor.py`).

The file shallowly embeds the editing-state core of the editor: the
line-based wrap-around search of `CodeEditor._perform_search`, the
document / status-bar state touched by `on_text_area_changed`,
`action_save`, `action_quit` and `_load_file`, and the status-line
rendering of `StatusBar._update_status`.  Strings are modelled as
`List Char`; the file-system write and read are modelled by their
outcome (`writeOk : Bool`, `readResult : Option (List Char)`), which the
code only observes through success or an exception.
-/

namespace TuiEditor

/-- Split a character list at newline characters, as Python's
`text.split("\n")` used throughout `editor.py`: the result always has at
least one (possibly empty) segment, and a trailing newline yields a
trailing empty segment. -/
def splitLines : List Char → List (List Char)
  | [] => [[]]
  | c :: rest =>
    match splitLines rest with
    | [] => [[]]
    | l :: ls => if c = '\n' then [] :: l :: ls else (c :: l) :: ls

/-- `occursAt s pat j` holds when `pat` occurs in `s` as a literal
case-sensitive substring starting at index `j`.  For the empty pattern
this still requires `j ≤ s.length`, matching Python `str.find`. -/
def occursAt (s pat : List Char) (j : Nat) : Bool :=
  decide (j + pat.length ≤ s.length) && decide ((s.drop j).take pat.length = pat)

/-- Scan indices `j, j + 1, …` (at most `fuel` of them) for the first
occurrence of `pat` in `s`. -/
def findFrom (s pat : List Char) : Nat → Nat → Option Nat
  | _, 0 => none
  | j, fuel + 1 => if occursAt s pat j then some j else findFrom s pat (j + 1) fuel

/-- Python's `s.find(pat, start)`, with `none` standing for `-1`: the
least index `j ≥ start` at which `pat` occurs in `s`, if any. -/
def pyFind (s pat : List Char) (start : Nat) : Option Nat :=
  findFrom s pat start (s.length + 1 - start)

/-- The `search_start` of `_perform_search`: column `fromCol` on the
starting line itself, column `0` on every other line. -/
def startColOf (fromLine fromCol i : Nat) : Nat :=
  if i = fromLine then fromCol else 0

/-- One `for i in range(...)` loop of `_perform_search`: try
`lines[i].find(term, search_start)` on `fuel` successive lines starting
at index `i`, returning the first `(line, column)` hit. -/
def scanLoop (lines : List (List Char)) (term : List Char) (fromLine fromCol : Nat) :
    Nat → Nat → Option (Nat × Nat)
  | _, 0 => none
  | i, fuel + 1 =>
    match pyFind (lines.getD i []) term (startColOf fromLine fromCol i) with
    | some pos => some (i, pos)
    | none => scanLoop lines term fromLine fromCol (i + 1) fuel

/-- The search of `CodeEditor._perform_search` as a pure function of the
document text, the term and the starting cursor position: a forward pass
over lines `fromLine .. last`, then a wrap pass over lines
`0 .. fromLine - 1`. -/
def findNext (content term : List Char) (fromLine fromCol : Nat) : Option (Nat × Nat) :=
  match scanLoop (splitLines content) term fromLine fromCol fromLine
      ((splitLines content).length - fromLine) with
  | some r => some r
  | none => scanLoop (splitLines content) term fromLine fromCol 0 fromLine

/-- The mutable state of the editor that the verified actions touch:
the text-area widget text (`editor.text`), `self.current_content`,
`self.original_content` (the saved baseline), `self.file_path`, the
status bar's own `file_path` and `modified` reactives, and the cursor. -/
structure EdState where
  text : List Char
  currentContent : List Char
  baseline : List Char
  filePath : Option (List Char)
  sbPath : List Char
  modifiedFlag : Bool
  cursorLine : Nat
  cursorCol : Nat
deriving DecidableEq

/-- Editor state right after `__init__` and `on_mount` with no file
argument: empty content, empty baseline, no backing path, status bar
showing `Untitled`, modified flag at its reactive default `False`. -/
def initState : EdState :=
  { text := [], currentContent := [], baseline := [], filePath := none,
    sbPath := "Untitled".data, modifiedFlag := false, cursorLine := 0, cursorCol := 0 }

/-- `CodeEditor.on_text_area_changed`: copy the widget text into
`current_content` and recompute the status bar's modified flag as
`current_content != original_content`. -/
def onTextAreaChanged (st : EdState) : EdState :=
  { st with
    currentContent := st.text
    modifiedFlag := decide (st.text ≠ st.baseline) }

/-- The fixed default file name substituted by `action_save`. -/
def untitledName : List Char := "untitled.txt".data

/-- The `if not save_path or save_path == "Untitled"` test of
`action_save`, deciding whether the default name is substituted. -/
def pathNeedsDefault : Option (List Char) → Bool
  | none => true
  | some p => decide (p = []) || decide (p = "Untitled".data)

/-- The effective save target of `action_save`: the backing path, or
`untitled.txt` when it is absent, empty or the literal `Untitled`. -/
def defaultedPath : Option (List Char) → List Char
  | none => untitledName
  | some p => if p = [] ∨ p = "Untitled".data then untitledName else p

/-- Outcome of `action_save`: the new editor state, the `(path, text)`
pair actually written when the write succeeded, whether an error
notification was shown, and whether the process exited. -/
structure SaveResult where
  state : EdState
  written : Option (List Char × List Char)
  errorNotified : Bool
  exited : Bool
deriving DecidableEq

/-- `CodeEditor.action_save`.  The default path is adopted into
`self.file_path` before the write is attempted; on a successful write
the baseline is synchronized, the modified flag cleared and the status
path updated; on a failed write only an error notification happens. -/
def actionSave (st : EdState) (writeOk : Bool) : SaveResult :=
  let savePath := defaultedPath st.filePath
  let st1 := if pathNeedsDefault st.filePath then { st with filePath := some savePath } else st
  if writeOk then
    { state := { st1 with baseline := st1.text, modifiedFlag := false, sbPath := savePath },
      written := some (savePath, st1.text),
      errorNotified := false, exited := false }
  else
    { state := st1, written := none, errorNotified := true, exited := false }

/-- Outcome of `action_quit`: the new state, whether the unsaved-changes
warning was shown, and whether the process exited. -/
structure QuitResult where
  state : EdState
  warned : Bool
  exited : Bool
deriving DecidableEq

/-- `CodeEditor.action_quit`: with unsaved changes, warn and reset
`original_content` to the widget text; otherwise exit. -/
def actionQuit (st : EdState) : QuitResult :=
  if st.text ≠ st.baseline then
    { state := { st with baseline := st.text }, warned := true, exited := false }
  else
    { state := st, warned := false, exited := true }

/-- The placeholder text `_load_file` puts into the editor when the read
raises, for exception text `errMsg`. -/
def errorContent (errMsg : List Char) : List Char :=
  "# Error loading file: ".data ++ errMsg ++ "\n# Starting with empty file".data

/-- Outcome of `_load_file`: the new state, whether an error
notification was shown, and whether the process exited. -/
structure LoadResult where
  state : EdState
  errorNotified : Bool
  exited : Bool
deriving DecidableEq

/-- `CodeEditor._load_file` on `reqPath`, with `readResult` the outcome
of `open(...).read()`.  On success both content fields, the baseline,
the backing path and the status path are set; on failure only the
widget text and the status path change. -/
def loadFile (st : EdState) (reqPath : List Char) (readResult : Option (List Char))
    (errMsg : List Char) : LoadResult :=
  match readResult with
  | some content =>
    { state :=
        { st with
          baseline := content
          currentContent := content
          filePath := some reqPath
          text := content
          sbPath := reqPath }
      errorNotified := false
      exited := false }
  | none =>
    { state :=
        { st with
          text := errorContent errMsg
          sbPath := if reqPath = [] then "Untitled".data else reqPath }
      errorNotified := true
      exited := false }

/-- `CodeEditor._perform_search`: read the cursor, run the two scan
loops, and reposition the cursor on a hit; the second component reports
the `found` flag driving the notification. -/
def performSearch (st : EdState) (term : List Char) : EdState × Bool :=
  match findNext st.text term st.cursorLine st.cursorCol with
  | some (i, pos) => ({ st with cursorLine := i, cursorCol := pos }, true)
  | none => (st, false)

/-- `os.path.basename` for POSIX paths: the suffix after the last
slash. -/
def basename (p : List Char) : List Char :=
  p.foldl (fun acc c => if c = '/' then [] else acc ++ [c]) []

/-- `StatusBar._update_status`, rendering from the status bar's reactive
fields.  The modified marker in the source file is the two characters
`U+00E2 U+2014` (`" [â—]"`). -/
def updateStatus (filePath : List Char) (cursorLine cursorCol : Nat)
    (language : List Char) (modified : Bool) : List Char :=
  (if filePath = [] then "Untitled".data else basename filePath) ++
    (if modified then " [â—]".data else []) ++
    " | Line ".data ++ (Nat.repr cursorLine).data ++ ", Col ".data ++
    (Nat.repr cursorCol).data ++ " | ".data ++ language

/-- The recomputed status line as a function of the displayed path, the
modified flag, the zero-based cursor and the language label: the cursor
handlers call `set_cursor_pos(line + 1, col + 1)` before
`_update_status` runs. -/
def statusOf (sbPath : List Char) (modified : Bool) (cursorLine cursorCol : Nat)
    (language : List Char) : List Char :=
  updateStatus sbPath (cursorLine + 1) (cursorCol + 1) language modified

/-- The status-line text exactly as the specification's format string
writes it: marker `" [●]"` (`U+25CF`) and no space between the
name/marker and the `"| Line"` separator. -/
def statusTextClaimed (sbPath : List Char) (modified : Bool) (cursorLine cursorCol : Nat)
    (language : List Char) : List Char :=
  (if sbPath = [] then "Untitled".data else basename sbPath) ++
    (if modified then " [●]".data else []) ++
    "| Line ".data ++ (Nat.repr (cursorLine + 1)).data ++ ", Col ".data ++
    (Nat.repr (cursorCol + 1)).data ++ " | ".data ++ language

/-- The specification's status-line format amended to what the source
emits: the marker is the source's literal `" [â—]"` characters and a
space precedes the `"|"` after the name/marker. -/
def statusTextAmended (sbPath : List Char) (modified : Bool) (cursorLine cursorCol : Nat)
    (language : List Char) : List Char :=
  (if sbPath = [] then "Untitled".data else basename sbPath) ++
    (if modified then " [â—]".data else []) ++
    " | Line ".data ++ (Nat.repr (cursorLine + 1)).data ++ ", Col ".data ++
    (Nat.repr (cursorCol + 1)).data ++ " | ".data ++ language

/-- A match at index `j` forces `j` within the haystack. -/
theorem occursAt_le (s pat : List Char) (j : Nat) (h : occursAt s pat j = true) :
    j ≤ s.length := by
  have h1 := ((Bool.and_eq_true _ _).mp h).1
  have h2 := of_decide_eq_true h1
  omega

/-- An index past the haystack never matches. -/
theorem occursAt_false_of_gt (s pat : List Char) (j : Nat) (h : s.length < j) :
    occursAt s pat j = false := by
  cases hoc : occursAt s pat j with
  | false => rfl
  | true => exact absurd (occursAt_le s pat j hoc) (by omega)

/-- `findFrom` returns exactly the least matching index in its scan
window. -/
theorem findFrom_eq_some_iff (s pat : List Char) (fuel : Nat) :
    ∀ j r, findFrom s pat j fuel = some r ↔
      (j ≤ r ∧ r < j + fuel ∧ occursAt s pat r = true ∧
        ∀ k, j ≤ k → k < r → occursAt s pat k = false) := by
  induction fuel with
  | zero =>
    intro j r
    simp only [findFrom]
    constructor
    · intro h; exact Option.noConfusion h
    · rintro ⟨h1, h2, -, -⟩; exfalso; omega
  | succ fuel ih =>
    intro j r
    simp only [findFrom]
    by_cases h : occursAt s pat j = true
    · rw [if_pos h]
      constructor
      · intro he
        injection he with he
        subst he
        refine ⟨Nat.le_refl _, by omega, h, ?_⟩
        intro k hk1 hk2; exfalso; omega
      · rintro ⟨h1, h2, h3, h4⟩
        have hjr : j = r := by
          by_contra hne
          have := h4 j (Nat.le_refl _) (by omega)
          rw [h] at this
          exact Bool.noConfusion this
        rw [hjr]
    · rw [if_neg h]
      have hocf : occursAt s pat j = false := by
        revert h; cases occursAt s pat j <;> simp
      rw [ih (j + 1) r]
      constructor
      · rintro ⟨h1, h2, h3, h4⟩
        refine ⟨by omega, by omega, h3, ?_⟩
        intro k hk1 hk2
        rcases Nat.lt_or_ge k (j + 1) with hk | hk
        · have hke : k = j := by omega
          rw [hke]; exact hocf
        · exact h4 k hk hk2
      · rintro ⟨h1, h2, h3, h4⟩
        have hne : r ≠ j := by
          intro he
          rw [he] at h3
          rw [h3] at hocf
          exact Bool.noConfusion hocf
        refine ⟨by omega, by omega, h3, ?_⟩
        intro k hk1 hk2
        exact h4 k (by omega) hk2

/-- `findFrom` fails exactly when no index in its scan window
matches. -/
theorem findFrom_eq_none_iff (s pat : List Char) (fuel : Nat) :
    ∀ j, findFrom s pat j fuel = none ↔
      ∀ k, j ≤ k → k < j + fuel → occursAt s pat k = false := by
  induction fuel with
  | zero =>
    intro j
    simp only [findFrom]
    constructor
    · intro _ k hk1 hk2; exfalso; omega
    · intro _; trivial
  | succ fuel ih =>
    intro j
    simp only [findFrom]
    by_cases h : occursAt s pat j = true
    · rw [if_pos h]
      constructor
      · intro he; exact Option.noConfusion he
      · intro hall
        have := hall j (Nat.le_refl _) (by omega)
        rw [h] at this
        exact Bool.noConfusion this
    · rw [if_neg h]
      have hocf : occursAt s pat j = false := by
        revert h; cases occursAt s pat j <;> simp
      rw [ih (j + 1)]
      constructor
      · intro hall k hk1 hk2
        rcases Nat.lt_or_ge k (j + 1) with hk | hk
        · have hke : k = j := by omega
          rw [hke]; exact hocf
        · exact hall k hk (by omega)
      · intro hall k hk1 hk2
        exact hall k (by omega) (by omega)

/-- Python `find` semantics: a `some` result is the least matching
index at or after `start`. -/
theorem pyFind_eq_some_iff (s pat : List Char) (start r : Nat) :
    pyFind s pat start = some r ↔
      (start ≤ r ∧ occursAt s pat r = true ∧
        ∀ k, start ≤ k → k < r → occursAt s pat k = false) := by
  unfold pyFind
  rw [findFrom_eq_some_iff]
  constructor
  · rintro ⟨h1, h2, h3, h4⟩; exact ⟨h1, h3, h4⟩
  · rintro ⟨h1, h3, h4⟩
    have := occursAt_le s pat r h3
    exact ⟨h1, by omega, h3, h4⟩

/-- Python `find` semantics: a `-1` result means no index at or after
`start` matches. -/
theorem pyFind_eq_none_iff (s pat : List Char) (start : Nat) :
    pyFind s pat start = none ↔ ∀ k, start ≤ k → occursAt s pat k = false := by
  unfold pyFind
  rw [findFrom_eq_none_iff]
  constructor
  · intro hall k h1
    rcases Nat.lt_or_ge k (start + (s.length + 1 - start)) with hk | hk
    · exact hall k h1 hk
    · exact occursAt_false_of_gt s pat k (by omega)
  · intro hall k h1 _
    exact hall k h1

/-- A line contains a match of `term` at or after column `c`. -/
def lineMatchFrom (l term : List Char) (c : Nat) : Prop :=
  ∃ j, c ≤ j ∧ occursAt l term j = true

/-- Bridge between the `-1` result of `find` and the absence of any
match at or after the start column. -/
theorem pyFind_eq_none_iff_not_match (l term : List Char) (c : Nat) :
    pyFind l term c = none ↔ ¬ lineMatchFrom l term c := by
  rw [pyFind_eq_none_iff]
  constructor
  · rintro hall ⟨j, hj1, hj2⟩
    rw [hall j hj1] at hj2
    exact Bool.noConfusion hj2
  · intro hno k hk
    cases hoc : occursAt l term k with
    | false => rfl
    | true => exact absurd ⟨k, hk, hoc⟩ hno

/-- On a line other than the starting one, the search starts at column
zero. -/
theorem startColOf_ne (fromLine fromCol i : Nat) (h : i ≠ fromLine) :
    startColOf fromLine fromCol i = 0 := by
  unfold startColOf
  rw [if_neg h]

/-- A scan loop returns `some (r, c)` exactly when line `r` is the first
line in its window whose `find` call hits, and `c` is that hit. -/
theorem scanLoop_eq_some_iff (lines : List (List Char)) (term : List Char)
    (fromLine fromCol fuel : Nat) :
    ∀ i r c, scanLoop lines term fromLine fromCol i fuel = some (r, c) ↔
      (i ≤ r ∧ r < i + fuel ∧
        pyFind (lines.getD r []) term (startColOf fromLine fromCol r) = some c ∧
        ∀ k, i ≤ k → k < r →
          pyFind (lines.getD k []) term (startColOf fromLine fromCol k) = none) := by
  induction fuel with
  | zero =>
    intro i r c
    simp only [scanLoop]
    constructor
    · intro h; exact Option.noConfusion h
    · rintro ⟨h1, h2, -, -⟩; exfalso; omega
  | succ fuel ih =>
    intro i r c
    simp only [scanLoop]
    cases hp : pyFind (lines.getD i []) term (startColOf fromLine fromCol i) with
    | some pos =>
      constructor
      · intro he
        injection he with he
        cases he
        refine ⟨Nat.le_refl _, by omega, hp, ?_⟩
        intro k hk1 hk2; exfalso; omega
      · rintro ⟨h1, h2, h3, h4⟩
        rcases Nat.eq_or_lt_of_le h1 with he | hl
        · subst he
          rw [hp] at h3
          injection h3 with h3
          rw [h3]
        · have := h4 i (Nat.le_refl _) hl
          rw [hp] at this
          exact Option.noConfusion this
    | none =>
      rw [ih (i + 1) r c]
      constructor
      · rintro ⟨h1, h2, h3, h4⟩
        refine ⟨by omega, by omega, h3, ?_⟩
        intro k hk1 hk2
        rcases Nat.lt_or_ge k (i + 1) with hk | hk
        · have hke : k = i := by omega
          rw [hke]; exact hp
        · exact h4 k hk hk2
      · rintro ⟨h1, h2, h3, h4⟩
        have hne : i ≠ r := by
          intro he
          rw [← he] at h3
          rw [hp] at h3
          exact Option.noConfusion h3
        refine ⟨by omega, by omega, h3, ?_⟩
        intro k hk1 hk2
        exact h4 k (by omega) hk2

/-- A scan loop returns `none` exactly when every `find` call in its
window misses. -/
theorem scanLoop_eq_none_iff (lines : List (List Char)) (term : List Char)
    (fromLine fromCol fuel : Nat) :
    ∀ i, scanLoop lines term fromLine fromCol i fuel = none ↔
      ∀ k, i ≤ k → k < i + fuel →
        pyFind (lines.getD k []) term (startColOf fromLine fromCol k) = none := by
  induction fuel with
  | zero =>
    intro i
    simp only [scanLoop]
    constructor
    · intro _ k hk1 hk2; exfalso; omega
    · intro _; trivial
  | succ fuel ih =>
    intro i
    simp only [scanLoop]
    cases hp : pyFind (lines.getD i []) term (startColOf fromLine fromCol i) with
    | some pos =>
      constructor
      · intro he; exact Option.noConfusion he
      · intro hall
        have := hall i (Nat.le_refl _) (by omega)
        rw [hp] at this
        exact Option.noConfusion this
    | none =>
      rw [ih (i + 1)]
      constructor
      · intro hall k hk1 hk2
        rcases Nat.lt_or_ge k (i + 1) with hk | hk
        · have hke : k = i := by omega
          rw [hke]; exact hp
        · exact hall k hk (by omega)
      · intro hall k hk1 hk2
        exact hall k (by omega) (by omega)

/-- `findNext` is the forward scan's result when it hits. -/
theorem findNext_eq_forward (content term : List Char) (fromLine fromCol : Nat)
    (r : Nat × Nat)
    (h : scanLoop (splitLines content) term fromLine fromCol fromLine
      ((splitLines content).length - fromLine) = some r) :
    findNext content term fromLine fromCol = some r := by
  unfold findNext
  rw [h]

/-- `findNext` falls through to the wrap scan when the forward scan
misses. -/
theorem findNext_eq_wrap (content term : List Char) (fromLine fromCol : Nat)
    (h : scanLoop (splitLines content) term fromLine fromCol fromLine
      ((splitLines content).length - fromLine) = none) :
    findNext content term fromLine fromCol =
      scanLoop (splitLines content) term fromLine fromCol 0 fromLine := by
  unfold findNext
  rw [h]

/-- Declarative reading of the search contract: a `some (r, c)` result
is either the first forward-pass line with a match (start column
restricted to `fromCol` only on `fromLine`) together with its earliest
match column, or — when every forward-pass line misses — the first
wrap-pass line `r < fromLine` with a match from column 0 together with
its earliest match column; a `none` result means both passes miss. -/
def FindNextSpec (content term : List Char) (fromLine fromCol : Nat) : Prop :=
  (∀ r c, findNext content term fromLine fromCol = some (r, c) ↔
    ((fromLine ≤ r ∧ r < (splitLines content).length ∧
      startColOf fromLine fromCol r ≤ c ∧
      occursAt ((splitLines content).getD r []) term c = true ∧
      (∀ j, startColOf fromLine fromCol r ≤ j → j < c →
        occursAt ((splitLines content).getD r []) term j = false) ∧
      (∀ k, fromLine ≤ k → k < r →
        ¬ lineMatchFrom ((splitLines content).getD k []) term
          (startColOf fromLine fromCol k)))
     ∨
     (r < fromLine ∧
      (∀ k, fromLine ≤ k → k < (splitLines content).length →
        ¬ lineMatchFrom ((splitLines content).getD k []) term
          (startColOf fromLine fromCol k)) ∧
      occursAt ((splitLines content).getD r []) term c = true ∧
      (∀ j, j < c → occursAt ((splitLines content).getD r []) term j = false) ∧
      (∀ k, k < r → ¬ lineMatchFrom ((splitLines content).getD k []) term 0)))) ∧
  (findNext content term fromLine fromCol = none ↔
    ((∀ k, fromLine ≤ k → k < (splitLines content).length →
      ¬ lineMatchFrom ((splitLines content).getD k []) term
        (startColOf fromLine fromCol k)) ∧
     (∀ k, k < fromLine →
      ¬ lineMatchFrom ((splitLines content).getD k []) term 0)))

/-- C1: for every content, term and in-document start position,
`find_next` scans forward from `from_line` (start column `from_col` only
on `from_line` itself, later lines from column 0) and returns the
earliest match column of the first matching line; on a full forward
miss it scans lines `0 .. from_line - 1` from column 0 under the same
first-match-wins rule, and returns "not found" only when both passes
fail. -/
theorem findNext_spec (content term : List Char) (fromLine fromCol : Nat)
    (h : fromLine < (splitLines content).length) :
    FindNextSpec content term fromLine fromCol := by
  unfold FindNextSpec
  cases hF : scanLoop (splitLines content) term fromLine fromCol fromLine
      ((splitLines content).length - fromLine) with
  | some x =>
    obtain ⟨r0, c0⟩ := x
    have hEq : findNext content term fromLine fromCol = some (r0, c0) :=
      findNext_eq_forward content term fromLine fromCol (r0, c0) hF
    rw [scanLoop_eq_some_iff] at hF
    obtain ⟨hF1, hF2, hF3, hF4⟩ := hF
    rw [pyFind_eq_some_iff] at hF3
    obtain ⟨h31, h32, h33⟩ := hF3
    have hF4m : ∀ k, fromLine ≤ k → k < r0 →
        ¬ lineMatchFrom ((splitLines content).getD k []) term
          (startColOf fromLine fromCol k) := by
      intro k hk1 hk2
      rw [← pyFind_eq_none_iff_not_match]
      exact hF4 k hk1 hk2
    constructor
    · intro r c
      rw [hEq]
      constructor
      · intro he
        injection he with he
        cases he
        exact Or.inl ⟨hF1, by omega, h31, h32, h33, hF4m⟩
      · rintro (⟨g1, g2, g3, g4, g5, g6⟩ | ⟨g1, g2, g3, g4, g5⟩)
        · have hr : r0 = r := by
            rcases Nat.lt_trichotomy r0 r with hl | he | hg
            · exact absurd ⟨c0, h31, h32⟩ (g6 r0 hF1 hl)
            · exact he
            · have := hF4 r g1 hg
              rw [pyFind_eq_none_iff_not_match] at this
              exact absurd ⟨c, g3, g4⟩ this
          subst hr
          have hc : c0 = c := by
            rcases Nat.lt_trichotomy c0 c with hl | he | hg
            · have := g5 c0 h31 hl
              rw [h32] at this
              exact Bool.noConfusion this
            · exact he
            · have := h33 c g3 hg
              rw [g4] at this
              exact Bool.noConfusion this
          rw [hc]
        · exact absurd ⟨c0, h31, h32⟩ (g2 r0 hF1 (by omega))
    · rw [hEq]
      constructor
      · intro he; exact Option.noConfusion he
      · rintro ⟨g1, g2⟩
        exact absurd ⟨c0, h31, h32⟩ (g1 r0 hF1 (by omega))
  | none =>
    have hEq : findNext content term fromLine fromCol =
        scanLoop (splitLines content) term fromLine fromCol 0 fromLine :=
      findNext_eq_wrap content term fromLine fromCol hF
    rw [scanLoop_eq_none_iff] at hF
    have hFall : ∀ k, fromLine ≤ k → k < (splitLines content).length →
        ¬ lineMatchFrom ((splitLines content).getD k []) term
          (startColOf fromLine fromCol k) := by
      intro k hk1 hk2
      rw [← pyFind_eq_none_iff_not_match]
      exact hF k hk1 (by omega)
    constructor
    · intro r c
      rw [hEq, scanLoop_eq_some_iff]
      constructor
      · rintro ⟨w1, w2, w3, w4⟩
        have hrlt : r < fromLine := by omega
        rw [startColOf_ne fromLine fromCol r (by omega)] at w3
        rw [pyFind_eq_some_iff] at w3
        obtain ⟨w31, w32, w33⟩ := w3
        refine Or.inr ⟨hrlt, hFall, w32, ?_, ?_⟩
        · intro j hj
          exact w33 j (Nat.zero_le _) hj
        · intro k hk
          have := w4 k (Nat.zero_le _) hk
          rw [startColOf_ne fromLine fromCol k (by omega)] at this
          rw [pyFind_eq_none_iff_not_match] at this
          exact this
      · rintro (⟨g1, g2, g3, g4, g5, g6⟩ | ⟨g1, g2, g3, g4, g5⟩)
        · exact absurd ⟨c, g3, g4⟩ (hFall r g1 g2)
        · refine ⟨Nat.zero_le _, by omega, ?_, ?_⟩
          · rw [startColOf_ne fromLine fromCol r (by omega)]
            rw [pyFind_eq_some_iff]
            refine ⟨Nat.zero_le _, g3, ?_⟩
            intro k _ hk
            exact g4 k hk
          · intro k hk1 hk2
            rw [startColOf_ne fromLine fromCol k (by omega)]
            rw [pyFind_eq_none_iff_not_match]
            exact g5 k hk2
    · rw [hEq, scanLoop_eq_none_iff]
      constructor
      · intro hW
        refine ⟨hFall, ?_⟩
        intro k hk
        have := hW k (Nat.zero_le _) (by omega)
        rw [startColOf_ne fromLine fromCol k (by omega)] at this
        rw [pyFind_eq_none_iff_not_match] at this
        exact this
      · rintro ⟨g1, g2⟩ k hk1 hk2
        rw [startColOf_ne fromLine fromCol k (by omega)]
        rw [pyFind_eq_none_iff_not_match]
        exact g2 k (by omega)

/-- C1 witness: the characterization instantiated at a concrete search,
with the in-document hypothesis discharged. -/
theorem findNext_spec_witness :
    0 < (splitLines "a\nb".data).length ∧ FindNextSpec "a\nb".data "b".data 0 0 :=
  ⟨by decide, findNext_spec "a\nb".data "b".data 0 0 (by decide)⟩

/-- C2 counterexample: from `(2, 1)` the search does not wrap to
`(1, 0)` — line 2 is `"bb"` and `"bb".find("b", 1)` hits at column 1, so
the forward pass already succeeds. -/
theorem findNext_scenario_counterexample :
    findNext "a\nb\nbb\n".data "b".data 2 1 ≠ some (1, 0) := by decide

/-- C2 (amended): on `"a\nb\nbb\n"`, searching `"b"` from `(0,0)` gives
`(1,0)`, from `(1,1)` gives `(2,0)`, and from `(2,1)` gives `(2,1)` (the
second `b` of line 2), not a wrap to `(1,0)`. -/
theorem findNext_scenario :
    findNext "a\nb\nbb\n".data "b".data 0 0 = some (1, 0) ∧
    findNext "a\nb\nbb\n".data "b".data 1 1 = some (2, 0) ∧
    findNext "a\nb\nbb\n".data "b".data 2 1 = some (2, 1) := by decide

/-- The events of claim C3: a content-change event reported by the
editing surface, or a save with the given write outcome. -/
inductive DocEvent where
  | setContent (s : List Char)
  | save (writeOk : Bool)

/-- Dispatch one event: a content change updates the widget text and
runs `on_text_area_changed`; a save runs `action_save`. -/
def stepEvent (st : EdState) (e : DocEvent) : EdState :=
  match e with
  | .setContent s => onTextAreaChanged { st with text := s }
  | .save writeOk => (actionSave st writeOk).state

/-- `action_save` never changes the widget text. -/
theorem actionSave_text (st : EdState) (w : Bool) :
    (actionSave st w).state.text = st.text := by
  cases hp : pathNeedsDefault st.filePath <;> cases w <;> simp [actionSave, hp]

/-- `action_save` never changes `current_content`. -/
theorem actionSave_currentContent (st : EdState) (w : Bool) :
    (actionSave st w).state.currentContent = st.currentContent := by
  cases hp : pathNeedsDefault st.filePath <;> cases w <;> simp [actionSave, hp]

/-- A successful save synchronizes the baseline to the widget text. -/
theorem actionSave_baseline_ok (st : EdState) :
    (actionSave st true).state.baseline = st.text := by
  cases hp : pathNeedsDefault st.filePath <;> simp [actionSave, hp]

/-- A failed save leaves the baseline unchanged. -/
theorem actionSave_baseline_fail (st : EdState) :
    (actionSave st false).state.baseline = st.baseline := by
  cases hp : pathNeedsDefault st.filePath <;> simp [actionSave, hp]

/-- A successful save clears the modified flag. -/
theorem actionSave_flag_ok (st : EdState) :
    (actionSave st true).state.modifiedFlag = false := by
  cases hp : pathNeedsDefault st.filePath <;> simp [actionSave, hp]

/-- A failed save leaves the modified flag unchanged. -/
theorem actionSave_flag_fail (st : EdState) :
    (actionSave st false).state.modifiedFlag = st.modifiedFlag := by
  cases hp : pathNeedsDefault st.filePath <;> simp [actionSave, hp]

/-- The auxiliary invariant carried through claim C3's induction:
`current_content` mirrors the widget text and the displayed flag is the
recomputed inequality with the baseline. -/
def ContentFlagInv (st : EdState) : Prop :=
  st.currentContent = st.text ∧
  st.modifiedFlag = decide (st.currentContent ≠ st.baseline)

/-- The startup state satisfies the invariant. -/
theorem contentFlagInv_init : ContentFlagInv initState := by
  constructor <;> rfl

/-- Every event of claim C3 preserves the invariant. -/
theorem contentFlagInv_step (st : EdState) (e : DocEvent) (h : ContentFlagInv st) :
    ContentFlagInv (stepEvent st e) := by
  obtain ⟨h1, h2⟩ := h
  cases e with
  | setContent s =>
    constructor <;> simp [stepEvent, onTextAreaChanged]
  | save writeOk =>
    constructor
    · rw [stepEvent, actionSave_currentContent, actionSave_text, h1]
    · cases writeOk with
      | true =>
        rw [stepEvent, actionSave_flag_ok, actionSave_currentContent,
          actionSave_baseline_ok, h1]
        simp
      | false =>
        rw [stepEvent, actionSave_flag_fail, actionSave_currentContent,
          actionSave_baseline_fail, h1, ← h1, h2]

/-- C3: after every sequence of content-change and save events from
startup, the displayed modified flag is set exactly when the current
content differs from the baseline, and it is cleared immediately after
any successful save. -/
theorem modifiedFlag_invariant (evs : List DocEvent) :
    ((evs.foldl stepEvent initState).modifiedFlag = true ↔
      (evs.foldl stepEvent initState).currentContent ≠
        (evs.foldl stepEvent initState).baseline) ∧
    ((evs ++ [DocEvent.save true]).foldl stepEvent initState).modifiedFlag = false := by
  have hInv : ∀ (l : List DocEvent) (st : EdState),
      ContentFlagInv st → ContentFlagInv (l.foldl stepEvent st) := by
    intro l
    induction l with
    | nil => intro st hs; exact hs
    | cons e t ih => intro st hs; exact ih _ (contentFlagInv_step st e hs)
  have h1 := hInv evs initState contentFlagInv_init
  constructor
  · rw [h1.2]
    exact decide_eq_true_iff
  · rw [List.foldl_append]
    simp only [List.foldl]
    exact actionSave_flag_ok _

/-- C4: saving a document with no backing path substitutes
`untitled.txt`, adopts it as the new path, writes the current content
to it, and on success synchronizes the baseline and clears the modified
flag. -/
theorem actionSave_untitled (st : EdState) (h : st.filePath = none) :
    (actionSave st true).state.filePath = some untitledName ∧
    (actionSave st true).written = some (untitledName, st.text) ∧
    (actionSave st true).state.baseline = st.text ∧
    (actionSave st true).state.modifiedFlag = false := by
  simp [actionSave, pathNeedsDefault, defaultedPath, h]

/-- A modified untitled document, used to instantiate the save and quit
theorems. -/
def sampleNoPath : EdState :=
  { text := "hi".data, currentContent := "hi".data, baseline := [],
    filePath := none, sbPath := "Untitled".data, modifiedFlag := true,
    cursorLine := 0, cursorCol := 0 }

/-- C4 witness: the no-path save at a concrete state. -/
theorem actionSave_untitled_witness :
    sampleNoPath.filePath = none ∧
    ((actionSave sampleNoPath true).state.filePath = some untitledName ∧
     (actionSave sampleNoPath true).written = some (untitledName, sampleNoPath.text) ∧
     (actionSave sampleNoPath true).state.baseline = sampleNoPath.text ∧
     (actionSave sampleNoPath true).state.modifiedFlag = false) :=
  ⟨rfl, actionSave_untitled sampleNoPath rfl⟩

/-- C5: a failed write leaves the widget text, `current_content`, the
baseline and the modified flag untouched, writes nothing, surfaces an
error notification, and never exits the process. -/
theorem actionSave_fail_frame (st : EdState) :
    (actionSave st false).state.text = st.text ∧
    (actionSave st false).state.currentContent = st.currentContent ∧
    (actionSave st false).state.baseline = st.baseline ∧
    (actionSave st false).state.modifiedFlag = st.modifiedFlag ∧
    (actionSave st false).written = none ∧
    (actionSave st false).errorNotified = true ∧
    (actionSave st false).exited = false := by
  cases hp : pathNeedsDefault st.filePath <;> simp [actionSave, hp]

/-- C10: with no backing path, the default path is adopted before the
write, so even a failed save leaves the path permanently changed to
`untitled.txt` while text, `current_content` and baseline stay
untouched. -/
theorem actionSave_fail_path_adopted (st : EdState) (h : st.filePath = none) :
    (actionSave st false).state.filePath = some untitledName ∧
    (actionSave st false).state.text = st.text ∧
    (actionSave st false).state.currentContent = st.currentContent ∧
    (actionSave st false).state.baseline = st.baseline ∧
    (actionSave st false).written = none := by
  simp [actionSave, pathNeedsDefault, defaultedPath, h]

/-- C10 witness: the failed no-path save at a concrete state. -/
theorem actionSave_fail_path_adopted_witness :
    sampleNoPath.filePath = none ∧
    ((actionSave sampleNoPath false).state.filePath = some untitledName ∧
     (actionSave sampleNoPath false).state.text = sampleNoPath.text ∧
     (actionSave sampleNoPath false).state.currentContent = sampleNoPath.currentContent ∧
     (actionSave sampleNoPath false).state.baseline = sampleNoPath.baseline ∧
     (actionSave sampleNoPath false).written = none) :=
  ⟨rfl, actionSave_fail_path_adopted sampleNoPath rfl⟩

/-- With unsaved changes, `action_quit` warns and resets the
baseline. -/
theorem actionQuit_of_modified (st : EdState) (h : st.text ≠ st.baseline) :
    actionQuit st =
      { state := { st with baseline := st.text }, warned := true, exited := false } := by
  unfold actionQuit
  rw [if_pos h]

/-- Without unsaved changes, `action_quit` exits at once. -/
theorem actionQuit_of_clean (st : EdState) (h : st.text = st.baseline) :
    actionQuit st = { state := st, warned := false, exited := true } := by
  unfold actionQuit
  rw [if_neg (fun hh => hh h)]

/-- C6: on a modified document the first quit only warns and syncs the
baseline to the current content — it does not exit — and an immediately
following second quit exits; on an unmodified document the first quit
exits at once. -/
theorem actionQuit_spec (st : EdState) :
    (st.text ≠ st.baseline →
      (actionQuit st).warned = true ∧
      (actionQuit st).exited = false ∧
      (actionQuit st).state.baseline = st.text ∧
      (actionQuit st).state.text = st.text ∧
      (actionQuit (actionQuit st).state).exited = true) ∧
    (st.text = st.baseline →
      (actionQuit st).exited = true ∧
      (actionQuit st).warned = false ∧
      (actionQuit st).state = st) := by
  constructor
  · intro h
    rw [actionQuit_of_modified st h]
    refine ⟨rfl, rfl, rfl, rfl, ?_⟩
    rw [actionQuit_of_clean _ rfl]
  · intro h
    rw [actionQuit_of_clean st h]
    exact ⟨rfl, rfl, rfl⟩

/-- An unmodified document with a backing path, used to instantiate the
clean-quit branch. -/
def sampleClean : EdState :=
  { text := "ok".data, currentContent := "ok".data, baseline := "ok".data,
    filePath := some "a.txt".data, sbPath := "a.txt".data, modifiedFlag := false,
    cursorLine := 0, cursorCol := 0 }

/-- C6 witness: both quit branches at concrete states. -/
theorem actionQuit_spec_witness :
    (sampleNoPath.text ≠ sampleNoPath.baseline ∧
      ((actionQuit sampleNoPath).warned = true ∧
       (actionQuit sampleNoPath).exited = false ∧
       (actionQuit sampleNoPath).state.baseline = sampleNoPath.text ∧
       (actionQuit sampleNoPath).state.text = sampleNoPath.text ∧
       (actionQuit (actionQuit sampleNoPath).state).exited = true)) ∧
    (sampleClean.text = sampleClean.baseline ∧
      ((actionQuit sampleClean).exited = true ∧
       (actionQuit sampleClean).warned = false ∧
       (actionQuit sampleClean).state = sampleClean)) :=
  ⟨⟨by decide, (actionQuit_spec sampleNoPath).1 (by decide)⟩,
   ⟨rfl, (actionQuit_spec sampleClean).2 rfl⟩⟩

/-- A clean document backed by `old.txt`, used to exhibit the load
failure. -/
def sampleWithPath : EdState :=
  { text := "x".data, currentContent := "x".data, baseline := "x".data,
    filePath := some "old.txt".data, sbPath := "old.txt".data, modifiedFlag := false,
    cursorLine := 0, cursorCol := 0 }

/-- C7 counterexample: a failed load of `new.txt` over a document backed
by `old.txt` leaves `self.file_path` at `old.txt` — the document's path
does not become the requested path. -/
theorem loadFile_path_counterexample :
    (loadFile sampleWithPath "new.txt".data none "boom".data).state.filePath ≠
      some "new.txt".data := by decide

/-- C7 (amended): on a read failure the widget text is replaced by the
human-readable error message and the status bar shows the requested
path (or `Untitled` when it is empty), but the document's backing path,
baseline and `current_content` are left unchanged; the user is notified
and the process never terminates. -/
theorem loadFile_fail_spec (st : EdState) (reqPath errMsg : List Char) :
    (loadFile st reqPath none errMsg).state.text = errorContent errMsg ∧
    (loadFile st reqPath none errMsg).state.sbPath =
      (if reqPath = [] then "Untitled".data else reqPath) ∧
    (loadFile st reqPath none errMsg).state.filePath = st.filePath ∧
    (loadFile st reqPath none errMsg).state.baseline = st.baseline ∧
    (loadFile st reqPath none errMsg).state.currentContent = st.currentContent ∧
    (loadFile st reqPath none errMsg).errorNotified = true ∧
    (loadFile st reqPath none errMsg).exited = false :=
  ⟨rfl, rfl, rfl, rfl, rfl, rfl, rfl⟩

/-- C8: the search never touches the document content or baseline; the
cursor changes only by consuming the pure `findNext` result on a hit,
and a miss leaves the whole state unchanged. -/
theorem performSearch_frame (st : EdState) (term : List Char) :
    ((performSearch st term).1.text = st.text ∧
     (performSearch st term).1.currentContent = st.currentContent ∧
     (performSearch st term).1.baseline = st.baseline ∧
     (performSearch st term).1.filePath = st.filePath) ∧
    (∀ i pos, findNext st.text term st.cursorLine st.cursorCol = some (i, pos) →
      (performSearch st term).1.cursorLine = i ∧
      (performSearch st term).1.cursorCol = pos ∧
      (performSearch st term).2 = true) ∧
    (findNext st.text term st.cursorLine st.cursorCol = none →
      (performSearch st term).1 = st ∧ (performSearch st term).2 = false) := by
  unfold performSearch
  cases hf : findNext st.text term st.cursorLine st.cursorCol with
  | some x =>
    obtain ⟨i0, pos0⟩ := x
    refine ⟨⟨rfl, rfl, rfl, rfl⟩, ?_, ?_⟩
    · intro i pos he
      injection he with he
      cases he
      exact ⟨rfl, rfl, rfl⟩
    · intro he
      exact Option.noConfusion he
  | none =>
    refine ⟨⟨rfl, rfl, rfl, rfl⟩, ?_, fun _ => ⟨rfl, rfl⟩⟩
    intro i pos he
    exact Option.noConfusion he

/-- A two-line document used to instantiate both search branches. -/
def sampleSearch : EdState :=
  { text := "ab\ncd".data, currentContent := "ab\ncd".data, baseline := "ab\ncd".data,
    filePath := none, sbPath := "Untitled".data, modifiedFlag := false,
    cursorLine := 0, cursorCol := 0 }

/-- C8 witness: the frame theorem at a concrete hit and a concrete
miss. -/
theorem performSearch_frame_witness :
    (findNext sampleSearch.text "cd".data sampleSearch.cursorLine sampleSearch.cursorCol =
        some (1, 0) ∧
      ((performSearch sampleSearch "cd".data).1.cursorLine = 1 ∧
       (performSearch sampleSearch "cd".data).1.cursorCol = 0 ∧
       (performSearch sampleSearch "cd".data).2 = true)) ∧
    (findNext sampleSearch.text "zz".data sampleSearch.cursorLine sampleSearch.cursorCol =
        none ∧
      ((performSearch sampleSearch "zz".data).1 = sampleSearch ∧
       (performSearch sampleSearch "zz".data).2 = false)) :=
  ⟨⟨by decide, (performSearch_frame sampleSearch ("cd".data)).2.1 1 0 (by decide)⟩,
   ⟨by decide, (performSearch_frame sampleSearch ("zz".data)).2.2 (by decide)⟩⟩

/-- C9 counterexample: at the initial status-bar state the rendered line
is `"Untitled | Line 1, Col 1 | Text"`, with a space before the bar,
while the claimed format string has none. -/
theorem statusText_counterexample :
    statusOf [] false 0 0 "Text".data ≠ statusTextClaimed [] false 0 0 "Text".data := by
  decide

/-- C9 (amended): the recomputed status line is the basename of the
displayed path (or `Untitled` when it is empty), then the source's
literal marker `" [â—]"` exactly when modified, then a space, then
`"| Line "` with the one-based cursor line, `", Col "` with the
one-based column, `" | "` and the language label. -/
theorem statusOf_spec (sbPath : List Char) (modified : Bool) (cursorLine cursorCol : Nat)
    (language : List Char) :
    statusOf sbPath modified cursorLine cursorCol language =
      statusTextAmended sbPath modified cursorLine cursorCol language := rfl

end TuiEditor
